import Mathlib

/-!
Verification of the Howard County 2026 County Executive campaign-contributions
dashboard (`src/app.py`).

The dashboard is a thin presentation layer over a remote PostgREST/Supabase
backend.  We shallowly embed the pieces of `app.py` that carry the data
contract:

* the name normalizer `title_case_name` (Python strings are modelled as
  `List Char`; the ASCII behaviour of `str.lower`/`str.capitalize`/`str.strip`
  and of the regex `\s+` is modelled character-by-character on code points);
* the eight cached fetchers and their `resp.data or []` /
  `getattr(resp, "data", None) or []` post-processing (a backend response is
  modelled as a record whose `data` field is an `Option` of a row list; a
  Python exception escaping `execute()` is modelled with `Except`);
* the PostgREST query builder chains (`.eq`, `.order`, `.limit`): a query is a
  record of accumulated equality filters, an optional order relation and an
  optional limit, and running a query against a table state filters first,
  then sorts (stably, as the server's deterministic order), then truncates;
* the sidebar filter plumbing (`p_contributor_type`, `ct_group`), the in-app
  by-type row filter, the pandas display sorts (pandas multi-key
  `sort_values` uses a stable lexicographic sort, modelled by
  `List.insertionSort`), and the contact-signup form logic.
-/

/-! ### Python string primitives (ASCII model) -/

/-- Python strings, modelled as lists of characters. -/
abbrev Str := List Char

/-- Whitespace as matched by Python's `str.strip`, `str.isspace` and the regex
class `\s` (ASCII part): space, tab, newline, carriage return, vertical tab,
form feed. -/
def isSpC (c : Char) : Bool :=
  c.toNat == 32 || c.toNat == 9 || c.toNat == 10 || c.toNat == 13 ||
    c.toNat == 11 || c.toNat == 12

/-- Lower-casing of one character (`str.lower`, ASCII model): `A`-`Z` map to
`a`-`z`, everything else is unchanged. -/
def lowerC (c : Char) : Char :=
  if 65 ≤ c.toNat ∧ c.toNat ≤ 90 then Char.ofNat (c.toNat + 32) else c

/-- Upper-casing of one character (used by `str.capitalize`, ASCII model):
`a`-`z` map to `A`-`Z`, everything else is unchanged. -/
def upperC (c : Char) : Char :=
  if 97 ≤ c.toNat ∧ c.toNat ≤ 122 then Char.ofNat (c.toNat - 32) else c

/-- Python `str.lower`. -/
def pyLower (s : Str) : Str := s.map lowerC

/-- Python `str.capitalize`: first character upper-cased, the rest
lower-cased. -/
def pyCapitalize (s : Str) : Str :=
  match s with
  | [] => []
  | c :: cs => upperC c :: cs.map lowerC

/-- Python `str.isspace`: non-empty and all whitespace. -/
def pyIsSpace (s : Str) : Bool := !s.isEmpty && s.all isSpC

/-- Python `str.strip`: drop leading and trailing whitespace. -/
def pyStrip (s : Str) : Str :=
  ((s.dropWhile isSpC).reverse.dropWhile isSpC).reverse

/-- The head element of `l.dropWhile q` falsifies `q`. -/
theorem dropWhile_head_false {q : Char → Bool} (l : List Char) :
    ∀ {c cs}, l.dropWhile q = c :: cs → q c = false := by
  induction l with
  | nil => intro c cs h; simp [List.dropWhile] at h
  | cons a t ih =>
      intro c cs h
      by_cases ha : q a
      · rw [List.dropWhile_cons_of_pos ha] at h
        exact ih h
      · rw [List.dropWhile_cons_of_neg ha] at h
        cases h
        simpa using ha

/-- Termination measure for `splitKeepWs`: after removing a non-empty
whitespace run we are strictly shorter. -/
theorem len_drop_drop {s : Str}
    (h : s.dropWhile (fun c => !isSpC c) ≠ []) :
    ((s.dropWhile (fun c => !isSpC c)).dropWhile isSpC).length < s.length := by
  set r := s.dropWhile (fun c => !isSpC c) with hr
  obtain ⟨c, cs, hcons⟩ := List.exists_cons_of_ne_nil h
  have hc : isSpC c = true := by
    have := dropWhile_head_false (q := fun c => !isSpC c) s (hr ▸ hcons)
    simpa using this
  have h1 : (r.dropWhile isSpC).length ≤ cs.length := by
    rw [hcons, List.dropWhile_cons_of_pos hc]
    exact (List.dropWhile_sublist _).length_le
  have h2 : r.length ≤ s.length := (List.dropWhile_sublist _).length_le
  have h3 : cs.length < r.length := by rw [hcons]; simp
  omega

/-- Python `re.split(r"(\s+)", s)`: split `s` at maximal whitespace runs,
keeping the runs (the captured separator) as tokens.  As in Python, the empty
string splits to `[""]`, and a leading/trailing whitespace run yields an empty
first/last token. -/
def splitKeepWs (s : Str) : List Str :=
  let w := s.takeWhile (fun c => !isSpC c)
  let r := s.dropWhile (fun c => !isSpC c)
  if hres : r = [] then [w]
  else w :: r.takeWhile isSpC :: splitKeepWs (r.dropWhile isSpC)
termination_by s.length
decreasing_by exact len_drop_drop hres

/-- The lower-case words that `title_case_name` keeps entirely lower case
(`keep_lower` in `app.py`). -/
def keep_lower : List Str :=
  [['o','f'], ['a','n','d'], ['t','h','e'], ['f','o','r'],
   ['t','o'], ['i','n'], ['o','n'], ['a','t']]

/-- The body of the `for p in parts` loop of `title_case_name`: whitespace
tokens pass through; other tokens are lower-cased and, unless they are one of
`keep_lower`, capitalized. -/
def titleToken (p : Str) : Str :=
  if pyIsSpace p then p
  else
    let low := pyLower p
    if low ∈ keep_lower then low else pyCapitalize low

/-- `title_case_name` from `src/app.py` lines 13-26: a falsy (empty) string is
returned unchanged; otherwise the stripped string is split at whitespace runs
(keeping the runs), each token is mapped by the loop body, and the pieces are
joined. -/
def title_case_name (s : Str) : Str :=
  if s = [] then s
  else ((splitKeepWs (pyStrip s)).map titleToken).flatten

/-- `title_case_name` as called on a possibly-`None` argument: Python's
`if not s: return s` returns `None` unchanged for `None` input. -/
def title_case_name_py (s : Option Str) : Option Str :=
  match s with
  | none => none
  | some t => some (title_case_name t)


/-! ### Backend responses and the fetcher post-processing -/

/-- Python `x or []` on an optional row list: `None` and the empty list are
falsy and produce `[]`. -/
def pyOrEmptyList {α : Type} (d : Option (List α)) : List α :=
  match d with
  | none => []
  | some l => l

/-- `to_df` (line 29-30): `pd.DataFrame(rows or [])`; a dataframe is modelled
as its row list. -/
def to_df {α : Type} (rows : List α) : List α := rows

/-- A backend response object as the fetchers see it: `data` models
`getattr(resp, "data", None)`, with `none` standing both for a `None` payload
and for a response object without a `data` attribute; `status` stands for the
parts of the response the fetchers never read. -/
structure PgResp (α : Type) where
  data : Option (List α)
  status : Nat

/-- A transport-level failure: `execute()` raising an exception, modelled by
its message. -/
abbrev TransportFailure := Str

/-- A fetcher body lifted over Python exception semantics: no fetcher in
`app.py` catches exceptions, so an exception from `execute()` propagates to
the caller unchanged. -/
def fetchWithExc {α : Type} (f : PgResp α → List α) :
    Except TransportFailure (PgResp α) → Except TransportFailure (List α)
  | .error e => .error e
  | .ok resp => .ok (f resp)

/-! ### Row shapes of the backend views and RPCs -/

/-- A row of `cf.v_candidates_ce_2026`; the sidebar reads the two name keys
with `r.get(...)`, which yields `None` for an absent key. -/
structure CandRow where
  candidate_last : Option Str
  candidate_first : Option Str
deriving DecidableEq

/-- A row of `cf.v_candidate_totals`.  Monetary amounts are modelled as
integers (minor units) and dates as integer ordinals. -/
structure TotalsRow where
  candidate_last : Str
  candidate_first : Str
  election_year : Int
  office : Str
  seat : Str
  total_amount : Int
  txn_count : Nat
  first_txn : Int
  last_txn : Int
deriving DecidableEq

/-- A row of `cf.v_candidate_totals_by_contributor_type`. -/
structure ByTypeRow where
  candidate_last : Str
  candidate_first : Str
  election_year : Int
  office : Str
  seat : Str
  contributor_type_group : Str
  total_amount : Int
  txn_count : Nat
  unique_donors : Nat
deriving DecidableEq

/-- A row of `cf.v_donor_to_candidate_typed`: the columns in the select list
of `fetch_top_donors_for_candidate_fixed` plus the columns its filters use. -/
structure DonorRow where
  donor_key : Str
  contributor_name : Str
  contributor_type : Str
  city : Str
  state : Str
  total_amount : Int
  txn_count : Nat
  first_txn : Int
  last_txn : Int
  contributor_type_group : Str
  election_year : Int
  office : Str
  seat : Str
  candidate_last : Str
deriving DecidableEq

/-- A row returned by the RPC `get_overlap_summary_for_candidate`. -/
structure OverlapSummaryRow where
  other_candidate_last : Option Str
  other_candidate_first : Option Str
  shared_donors : Nat
  shared_amount_to_candidate : Int
  shared_amount_to_other : Int
deriving DecidableEq

/-- A row returned by the RPC `get_donor_overlap_pairwise`. -/
structure PairRow where
  contributor_name : Str
  contributor_type : Str
  city : Str
  state : Str
  amount_to_a : Int
  amount_to_b : Int
  first_to_a : Int
  last_to_a : Int
  first_to_b : Int
  last_to_b : Int
deriving DecidableEq

/-- A row returned by the RPC `get_donor_history_for_candidate`. -/
structure HistRow where
  contributor_name : Str
  contributor_type : Str
  city : Str
  state : Str
  amount_to_candidate : Int
  n_to_candidate : Nat
  first_to_candidate : Int
  last_to_candidate : Int
  other_candidate_last : Str
  other_candidate_first : Str
  other_election_year : Int
  other_office : Str
  other_seat : Str
  total_to_other : Int
  n_to_other : Nat
  first_to_other : Int
  last_to_other : Int
deriving DecidableEq

/-- A row returned by the RPC
`get_entity_donors_with_other_candidate_history`. -/
structure EntityHistRow where
  contributor_name : Str
  amount_to_candidate : Int
  txn_to_candidate : Nat
  first_to_candidate : Int
  last_to_candidate : Int
  amount_to_others : Int
  other_candidates : Option (List Str)
deriving DecidableEq

/-! ### Fixed dashboard scope (`app.py` lines 74-76) -/

def SCOPE_YEAR : Int := 2026

def SCOPE_OFFICE : Str := "County Executive".toList

def SCOPE_SEAT : Str := "AtLarge".toList

/-! ### The PostgREST query builder -/

/-- A PostgREST query as accumulated by the supabase builder: a conjunction of
`.eq` row filters, an optional `.order` comparison, an optional `.limit`.
These are independent request parameters: whatever the order of the builder
calls in the Python source, the server applies the row filters first, then
the ordering, then the limit. -/
structure PQuery (α : Type) where
  rowFilter : α → Bool
  ordRel : Option (α → α → Bool)
  lim : Option Nat

/-- `.select("...")` on a table: the starting query, no restriction. -/
def PQuery.selectAll (α : Type) : PQuery α :=
  { rowFilter := fun _ => true, ordRel := none, lim := none }

/-- `.eq(column, value)`: conjoin one more equality filter. -/
def PQuery.eqCol {α : Type} (q : PQuery α) (f : α → Bool) : PQuery α :=
  { q with rowFilter := fun r => q.rowFilter r && f r }

/-- `.order(column, desc=True)`: set the order comparison. -/
def PQuery.orderBy {α : Type} (q : PQuery α) (rel : α → α → Bool) : PQuery α :=
  { q with ordRel := some rel }

/-- `.limit(n)`: set the row limit. -/
def PQuery.limitTo {α : Type} (q : PQuery α) (n : Nat) : PQuery α :=
  { q with lim := some n }

/-- Server-side execution of a query against a table state: filter, then sort
(the server's order is deterministic; a stable insertion sort realizes it),
then truncate. -/
def PQuery.run {α : Type} (q : PQuery α) (tbl : List α) : List α :=
  let filtered := tbl.filter q.rowFilter
  let sorted :=
    match q.ordRel with
    | none => filtered
    | some rel => filtered.insertionSort (fun a b => rel a b = true)
  match q.lim with
  | none => sorted
  | some n => sorted.take n

/-! ### The eight fetchers -/

/-- `fetch_candidates_ce_2026` (lines 82-86): select all of
`cf.v_candidates_ce_2026`, then `resp.data or []`. -/
def fetch_candidates_ce_2026 (resp : PgResp CandRow) : List CandRow :=
  pyOrEmptyList resp.data

/-- The query built by `fetch_candidate_totals_fixed` (lines 89-99):
`cf.v_candidate_totals` with `.eq` on the three scope columns. -/
def candidate_totals_query : PQuery TotalsRow :=
  (((PQuery.selectAll TotalsRow).eqCol
      (fun r => decide (r.election_year = SCOPE_YEAR))).eqCol
      (fun r => decide (r.office = SCOPE_OFFICE))).eqCol
      (fun r => decide (r.seat = SCOPE_SEAT))

/-- `fetch_candidate_totals_fixed` post-processing: `q.execute().data or []`. -/
def fetch_candidate_totals_fixed (resp : PgResp TotalsRow) : List TotalsRow :=
  pyOrEmptyList resp.data

/-- `fetch_candidate_totals_fixed` under the healthy-backend semantics: the
response payload is the query run against the view contents. -/
def run_candidate_totals (tbl : List TotalsRow) : List TotalsRow :=
  fetch_candidate_totals_fixed { data := some (candidate_totals_query.run tbl), status := 200 }

/-- The query built by `fetch_totals_by_type_fixed` (lines 102-112). -/
def totals_by_type_query : PQuery ByTypeRow :=
  (((PQuery.selectAll ByTypeRow).eqCol
      (fun r => decide (r.election_year = SCOPE_YEAR))).eqCol
      (fun r => decide (r.office = SCOPE_OFFICE))).eqCol
      (fun r => decide (r.seat = SCOPE_SEAT))

/-- `fetch_totals_by_type_fixed` post-processing. -/
def fetch_totals_by_type_fixed (resp : PgResp ByTypeRow) : List ByTypeRow :=
  pyOrEmptyList resp.data

/-- `fetch_totals_by_type_fixed` under the healthy-backend semantics. -/
def run_totals_by_type (tbl : List ByTypeRow) : List ByTypeRow :=
  fetch_totals_by_type_fixed { data := some (totals_by_type_query.run tbl), status := 200 }

/-- `fetch_overlap_summary_fixed` (lines 115-125): RPC
`get_overlap_summary_for_candidate` with the fixed scope payload, then
`getattr(resp, "data", None) or []`. -/
def fetch_overlap_summary_fixed (candidate_last : Str)
    (contributor_type : Option Str) (resp : PgResp OverlapSummaryRow) :
    List OverlapSummaryRow :=
  pyOrEmptyList resp.data

/-- `fetch_overlap_pairwise_fixed` (lines 128-139): RPC
`get_donor_overlap_pairwise`, then `getattr(resp, "data", None) or []`. -/
def fetch_overlap_pairwise_fixed (a_last b_last : Str)
    (contributor_type : Option Str) (resp : PgResp PairRow) : List PairRow :=
  pyOrEmptyList resp.data

/-- `fetch_donor_history_fixed` (lines 142-156): RPC
`get_donor_history_for_candidate`, then `getattr(resp, "data", None) or []`. -/
def fetch_donor_history_fixed (candidate_last : Str)
    (contributor_type : Option Str) (limit : Nat) (resp : PgResp HistRow) :
    List HistRow :=
  pyOrEmptyList resp.data

/-- `fetch_entity_history_fixed` (lines 159-170): RPC
`get_entity_donors_with_other_candidate_history`, then
`getattr(resp, "data", None) or []`. -/
def fetch_entity_history_fixed (candidate_last candidate_first : Str)
    (limit : Nat) (current_year_only : Bool) (resp : PgResp EntityHistRow) :
    List EntityHistRow :=
  pyOrEmptyList resp.data

/-- The query built by `fetch_top_donors_for_candidate_fixed` (lines 179-198):
scope and candidate `.eq` filters, `.order("total_amount", desc=True)`,
`.limit(int(top_n))`, plus — only when `contributor_type_group` is truthy —
one more `.eq` on `contributor_type_group` (added after `.limit` in the
source; as a request parameter it still belongs to the row filter). -/
def top_donors_query (candidate_last : Str) (contributor_type_group : Option Str)
    (top_n : Nat) : PQuery DonorRow :=
  let q :=
    ((((((PQuery.selectAll DonorRow).eqCol
        (fun r => decide (r.election_year = SCOPE_YEAR))).eqCol
        (fun r => decide (r.office = SCOPE_OFFICE))).eqCol
        (fun r => decide (r.seat = SCOPE_SEAT))).eqCol
        (fun r => decide (r.candidate_last = candidate_last))).orderBy
        (fun r1 r2 => decide (r2.total_amount ≤ r1.total_amount))).limitTo top_n
  match contributor_type_group with
  | none => q
  | some g => if g = [] then q
      else q.eqCol (fun r => decide (r.contributor_type_group = g))

/-- `fetch_top_donors_for_candidate_fixed` post-processing:
`getattr(resp, "data", None) or []`. -/
def fetch_top_donors_for_candidate_fixed (candidate_last : Str)
    (contributor_type_group : Option Str) (top_n : Nat)
    (resp : PgResp DonorRow) : List DonorRow :=
  pyOrEmptyList resp.data

/-- `fetch_top_donors_for_candidate_fixed` under the healthy-backend
semantics. -/
def run_top_donors (candidate_last : Str) (contributor_type_group : Option Str)
    (top_n : Nat) (tbl : List DonorRow) : List DonorRow :=
  fetch_top_donors_for_candidate_fixed candidate_last contributor_type_group top_n
    { data := some ((top_donors_query candidate_last contributor_type_group top_n).run tbl),
      status := 200 }

/-- The conjunction of the scope filters of the two totals queries, as one
predicate. -/
def scopeTot (r : TotalsRow) : Bool :=
  decide (r.election_year = SCOPE_YEAR ∧ r.office = SCOPE_OFFICE ∧ r.seat = SCOPE_SEAT)

/-- Scope filter of the by-type totals query, as one predicate. -/
def scopeTyp (r : ByTypeRow) : Bool :=
  decide (r.election_year = SCOPE_YEAR ∧ r.office = SCOPE_OFFICE ∧ r.seat = SCOPE_SEAT)

/-- Scope-plus-candidate filter of the top-donors query, as one predicate. -/
def scope_cand_filter (candidate_last : Str) (r : DonorRow) : Bool :=
  decide (r.election_year = SCOPE_YEAR ∧ r.office = SCOPE_OFFICE ∧
    r.seat = SCOPE_SEAT ∧ r.candidate_last = candidate_last)

/-! ### Sidebar filter plumbing and in-app row filter -/

/-- `p_contributor_type` (line 275): the UI value "All" maps to `None`,
anything else passes through. -/
def p_contributor_type_of (contrib_type_ui : Str) : Option Str :=
  if contrib_type_ui = "All".toList then none else some contrib_type_ui

/-- The `ct_group` mapping in the overview tab (lines 430-434). -/
def ct_group_of (p_contributor_type : Option Str) : Option Str :=
  if p_contributor_type = some "Individual".toList then some "Individual".toList
  else if p_contributor_type = some "Entity".toList then some "Entity".toList
  else none

/-- The in-app by-type row filter (lines 394-395): applied only when
`p_contributor_type` is truthy. -/
def apply_type_filter (p_contributor_type : Option Str) (df : List ByTypeRow) :
    List ByTypeRow :=
  match p_contributor_type with
  | none => df
  | some t =>
      if t = [] then df
      else df.filter (fun r => decide (r.contributor_type_group = t))

/-! ### Display sort of the pairwise drill-down (line 540) -/

/-- Pandas `sort_values(["amount_to_a", "amount_to_b"],
ascending=[False, False])` as a comparison: both keys descending,
lexicographically. -/
def pairSortRel (r1 r2 : PairRow) : Prop :=
  r2.amount_to_a < r1.amount_to_a ∨
    (r1.amount_to_a = r2.amount_to_a ∧ r2.amount_to_b ≤ r1.amount_to_b)

instance : DecidableRel pairSortRel := fun r1 r2 => by
  unfold pairSortRel
  infer_instance

instance : IsTotal PairRow pairSortRel :=
  ⟨fun a b => by unfold pairSortRel; omega⟩

instance : IsTrans PairRow pairSortRel :=
  ⟨fun a b c hab hbc => by unfold pairSortRel at hab hbc ⊢; omega⟩

/-- The displayed drill-down table: pandas multi-key `sort_values` is the
stable `lexsort`, realized by a stable insertion sort. -/
def pair_display_sort (rows : List PairRow) : List PairRow :=
  rows.insertionSort pairSortRel

/-- Code-point comparison on strings (ascending, with equality), used to
state the claimed name tie-break. -/
def strAsc (s t : Str) : Prop :=
  s = t ∨ List.Lex (fun a b : Char => a < b) s t

/-- The ordering the specification claims for the drill-down table: amount to
the target candidate descending, then amount to the other candidate
descending, then the other candidate's name ascending.  Every row of one
pairwise drill-down concerns the same other candidate `oname`. -/
def claimedPairOrder (oname : Str) (r1 r2 : PairRow) : Prop :=
  r1.amount_to_a > r2.amount_to_a ∨
    (r1.amount_to_a = r2.amount_to_a ∧
      (r1.amount_to_b > r2.amount_to_b ∨
        (r1.amount_to_b = r2.amount_to_b ∧ strAsc oname oname)))

/-! ### The contact-signup form (lines 287-311) -/

/-- The record inserted into `public.contact_signups` (lines 300-305):
stripped email, `strip() or None` for the optional fields. -/
structure ContactRecord where
  email : Str
  name : Option Str
  zip5 : Option Str
  source : Option Str
deriving DecidableEq

/-- Python `s.strip() or None`. -/
def pyStripOrNone (s : Str) : Option Str :=
  if pyStrip s = [] then none else some (pyStrip s)

/-- The submit branch of the contact form (lines 294-305): when the email is
empty or lacks an `@`, only an error is shown and no insert is attempted;
otherwise the insert payload is built. -/
def contact_form (email name zip5 source : Str) : Option ContactRecord :=
  if email = [] ∨ ¬ ('@' ∈ email) then none
  else some
    { email := pyStrip email
      name := pyStripOrNone name
      zip5 := pyStripOrNone zip5
      source := pyStripOrNone source }

/-- The zip text input truncates at `max_chars=10` (line 290). -/
def zip_input_accepted (raw : Str) : Str := raw.take 10

/-- The whole submit flow: the zip value handed to the form logic is what the
10-character-limited text input accepted. -/
def contact_form_submit (email name zipRaw source : Str) : Option ContactRecord :=
  contact_form email name (zip_input_accepted zipRaw) source

/-- The length of the zip value a submission stores (0 when nothing is
inserted or the zip is stored as NULL). -/
def storedZipLen (r : Option ContactRecord) : Nat :=
  match r with
  | none => 0
  | some rcd =>
      match rcd.zip5 with
      | none => 0
      | some z => z.length

/-- A sample row of `cf.v_donor_to_candidate_typed` inside the fixed scope,
used to instantiate theorems at a concrete input. -/
def sampleDonorRow : DonorRow :=
  { donor_key := ['k']
    contributor_name := ['d']
    contributor_type := ['I']
    city := []
    state := []
    total_amount := 5
    txn_count := 1
    first_txn := 0
    last_txn := 0
    contributor_type_group := ['I']
    election_year := 2026
    office := "County Executive".toList
    seat := "AtLarge".toList
    candidate_last := ['b'] }

/-- A sample pairwise-overlap row, used to instantiate theorems at a concrete
input. -/
def samplePairRow : PairRow :=
  { contributor_name := ['d']
    contributor_type := ['I']
    city := []
    state := []
    amount_to_a := 1
    amount_to_b := 1
    first_to_a := 0
    last_to_a := 0
    first_to_b := 0
    last_to_b := 0 }

/-! ### Character-level facts -/

theorem toNat_ofNat_valid {n : Nat} (h : n < 55296) : (Char.ofNat n).toNat = n := by
  have hv : n.isValidChar := Or.inl h
  rw [Char.ofNat, dif_pos hv]
  rfl

theorem lowerC_lowerC (c : Char) : lowerC (lowerC c) = lowerC c := by
  by_cases h : 65 ≤ c.toNat ∧ c.toNat ≤ 90
  · have h1 : lowerC c = Char.ofNat (c.toNat + 32) := by rw [lowerC, if_pos h]
    have h2 : (lowerC c).toNat = c.toNat + 32 := by
      rw [h1]; exact toNat_ofNat_valid (by omega)
    conv_lhs => rw [lowerC]
    rw [if_neg (by rw [h2]; omega)]
  · have h1 : lowerC c = c := by rw [lowerC, if_neg h]
    rw [h1, h1]

theorem lowerC_upperC (c : Char) : lowerC (upperC c) = lowerC c := by
  by_cases h : 97 ≤ c.toNat ∧ c.toNat ≤ 122
  · have h1 : upperC c = Char.ofNat (c.toNat - 32) := by rw [upperC, if_pos h]
    have h2 : (upperC c).toNat = c.toNat - 32 := by
      rw [h1]; exact toNat_ofNat_valid (by omega)
    have h3 : lowerC (upperC c) = Char.ofNat ((upperC c).toNat + 32) := by
      rw [lowerC, if_pos (by rw [h2]; omega)]
    have h4 : lowerC c = c := by rw [lowerC, if_neg (by omega)]
    rw [h3, h2, h4]
    have h5 : c.toNat - 32 + 32 = c.toNat := by omega
    rw [h5, Char.ofNat_toNat]
  · have h1 : upperC c = c := by rw [upperC, if_neg h]
    rw [h1]

theorem isSpC_lowerC {c : Char} (h : isSpC c = false) : isSpC (lowerC c) = false := by
  rw [lowerC]
  by_cases hc : 65 ≤ c.toNat ∧ c.toNat ≤ 90
  · rw [if_pos hc]
    have h2 : (Char.ofNat (c.toNat + 32)).toNat = c.toNat + 32 :=
      toNat_ofNat_valid (by omega)
    simp only [isSpC, h2, Bool.or_eq_false_iff, beq_eq_false_iff_ne, ne_eq]
    omega
  · rw [if_neg hc]; exact h

theorem isSpC_upperC {c : Char} (h : isSpC c = false) : isSpC (upperC c) = false := by
  rw [upperC]
  by_cases hc : 97 ≤ c.toNat ∧ c.toNat ≤ 122
  · rw [if_pos hc]
    have h2 : (Char.ofNat (c.toNat - 32)).toNat = c.toNat - 32 :=
      toNat_ofNat_valid (by omega)
    simp only [isSpC, h2, Bool.or_eq_false_iff, beq_eq_false_iff_ne, ne_eq]
    omega
  · rw [if_neg hc]; exact h

/-! ### Token alternation structure of `splitKeepWs` output -/

/-- A word token: non-empty, no whitespace characters. -/
def WordTok (p : Str) : Prop := p ≠ [] ∧ ∀ c ∈ p, isSpC c = false

/-- A whitespace token: non-empty, all whitespace characters. -/
def SpTok (p : Str) : Prop := p ≠ [] ∧ ∀ c ∈ p, isSpC c = true

/-- The shape of `re.split(r"(\s+)", u)` output on a stripped non-empty `u`:
word and whitespace tokens strictly alternate, starting and ending with a
word token. -/
inductive AltToks : List Str → Prop
  | single {w : Str} : WordTok w → AltToks [w]
  | alt {w s : Str} {rest : List Str} :
      WordTok w → SpTok s → AltToks rest → AltToks (w :: s :: rest)

/-- The first character of a string (when it exists) is not whitespace. -/
def HeadNotSp (s : Str) : Prop := ∀ c cs, s = c :: cs → isSpC c = false

/-- The last character of a string (when it exists) is not whitespace. -/
def LastNotSp (s : Str) : Prop := ∀ c, s.getLast? = some c → isSpC c = false

theorem splitKeepWs_of_nil {s : Str} (h : s.dropWhile (fun c => !isSpC c) = []) :
    splitKeepWs s = [s.takeWhile (fun c => !isSpC c)] := by
  rw [splitKeepWs]
  simp only [h]
  rfl

theorem splitKeepWs_of_ne_nil {s : Str} (h : s.dropWhile (fun c => !isSpC c) ≠ []) :
    splitKeepWs s =
      s.takeWhile (fun c => !isSpC c) ::
        (s.dropWhile (fun c => !isSpC c)).takeWhile isSpC ::
          splitKeepWs ((s.dropWhile (fun c => !isSpC c)).dropWhile isSpC) := by
  rw [splitKeepWs]
  simp only [dif_neg h]

theorem pyStrip_head (s : Str) : HeadNotSp (pyStrip s) := by
  intro c cs hc
  unfold pyStrip at hc
  set a := s.dropWhile isSpC with ha
  set b := a.reverse.dropWhile isSpC with hb
  have hbne : b ≠ [] := by
    intro hnil
    rw [hnil] at hc
    simp at hc
  have hlast : b.getLast? = a.reverse.getLast? := by
    conv_rhs => rw [← List.takeWhile_append_dropWhile (p := isSpC) (l := a.reverse)]
    rw [List.getLast?_append]
    rw [← hb]
    cases hgl : b.getLast? with
    | none => exact absurd (List.getLast?_eq_none_iff.mp hgl) hbne
    | some x => rfl
  have hrev : a.reverse.getLast? = a.head? := by simp
  have hane : a ≠ [] := by
    intro hnil
    rw [hnil] at hb
    simp at hb
    exact hbne hb
  obtain ⟨d, ds, hds⟩ := List.exists_cons_of_ne_nil hane
  have hd : isSpC d = false := dropWhile_head_false s (ha ▸ hds)
  have hcb : b.getLast? = some c := by
    rw [← List.head?_reverse, hc]
    rfl
  rw [hlast, hrev, hds] at hcb
  simp at hcb
  exact hcb ▸ hd

theorem pyStrip_last (s : Str) : LastNotSp (pyStrip s) := by
  intro c hc
  unfold pyStrip at hc
  set a := s.dropWhile isSpC with ha
  set b := a.reverse.dropWhile isSpC with hb
  rw [List.getLast?_reverse] at hc
  obtain ⟨d, ds, hds⟩ := List.exists_cons_of_ne_nil
    (l := b) (by intro hnil; rw [hnil] at hc; simp at hc)
  have hd : isSpC d = false := dropWhile_head_false a.reverse (hb ▸ hds)
  rw [hds] at hc
  simp at hc
  exact hc ▸ hd

theorem pyStrip_eq_self {u : Str} (h1 : HeadNotSp u) (h2 : LastNotSp u) :
    pyStrip u = u := by
  unfold pyStrip
  have ha : u.dropWhile isSpC = u := by
    cases u with
    | nil => rfl
    | cons c cs => rw [List.dropWhile_cons_of_neg (by simp [h1 c cs rfl])]
  rw [ha]
  have hb : u.reverse.dropWhile isSpC = u.reverse := by
    cases hrev : u.reverse with
    | nil => rfl
    | cons c cs =>
        have hcl : u.getLast? = some c := by
          rw [← List.head?_reverse, hrev]
          rfl
        rw [List.dropWhile_cons_of_neg (by simp [h2 c hcl])]
  rw [hb, List.reverse_reverse]


theorem altToks_flatten_head {L : List Str} (h : AltToks L) :
    ∃ c cs, L.flatten = c :: cs ∧ isSpC c = false := by
  cases h with
  | single hw =>
      obtain ⟨hne, hall⟩ := hw
      obtain ⟨c, cs, rfl⟩ := List.exists_cons_of_ne_nil hne
      exact ⟨c, cs, by simp, hall c (by simp)⟩
  | alt hw hs hrest =>
      rename_i w s rest
      obtain ⟨hne, hall⟩ := hw
      obtain ⟨c, cs, rfl⟩ := List.exists_cons_of_ne_nil hne
      exact ⟨c, cs ++ s ++ rest.flatten, by simp, hall c (by simp)⟩

theorem altToks_flatten_ne_nil {L : List Str} (h : AltToks L) : L.flatten ≠ [] := by
  obtain ⟨c, cs, hfl, _⟩ := altToks_flatten_head h
  rw [hfl]
  simp

theorem altToks_flatten_headNotSp {L : List Str} (h : AltToks L) :
    HeadNotSp L.flatten := by
  obtain ⟨c, cs, hfl, hc⟩ := altToks_flatten_head h
  intro c' cs' hc'
  rw [hfl] at hc'
  cases hc'
  exact hc

theorem altToks_flatten_lastNotSp {L : List Str} (h : AltToks L) :
    LastNotSp L.flatten := by
  induction h with
  | single hw =>
      obtain ⟨hne, hall⟩ := hw
      intro c hc
      simp only [List.flatten_cons, List.flatten_nil, List.append_nil] at hc
      exact hall c (List.mem_of_getLast?_eq_some hc)
  | alt hw hs hrest ih =>
      rename_i w s rest
      intro c hc
      simp only [List.flatten_cons] at hc
      rw [List.getLast?_append, List.getLast?_append] at hc
      have hfl : rest.flatten.getLast? = some c := by
        obtain ⟨d, ds, hding, _⟩ := altToks_flatten_head hrest
        cases hgl : rest.flatten.getLast? with
        | none =>
            rw [List.getLast?_eq_none_iff] at hgl
            exact absurd hgl (altToks_flatten_ne_nil hrest)
        | some x =>
            rw [hgl] at hc
            simp at hc
            rw [hc]
      exact ih c hfl

theorem altToks_splitKeepWs :
    ∀ (n : Nat) (s : Str), s.length ≤ n → s ≠ [] →
      HeadNotSp s → LastNotSp s → AltToks (splitKeepWs s) := by
  intro n
  induction n with
  | zero =>
      intro s hlen hne _ _
      obtain ⟨c, cs, rfl⟩ := List.exists_cons_of_ne_nil hne
      simp at hlen
  | succ m ih =>
      intro s hlen hne hhead hlast
      obtain ⟨c, cs, rfl⟩ := List.exists_cons_of_ne_nil hne
      have hc : isSpC c = false := hhead c cs rfl
      have hw : (c :: cs).takeWhile (fun x => !isSpC x) =
          c :: cs.takeWhile (fun x => !isSpC x) :=
        List.takeWhile_cons_of_pos (by simp [hc])
      by_cases hr : (c :: cs).dropWhile (fun x => !isSpC x) = []
      · rw [splitKeepWs_of_nil hr]
        refine AltToks.single ⟨by rw [hw]; simp, ?_⟩
        intro x hx
        have := List.mem_takeWhile_imp hx
        simpa using this
      · rw [splitKeepWs_of_ne_nil hr]
        set r := (c :: cs).dropWhile (fun x => !isSpC x) with hrdef
        obtain ⟨d, ds, hds⟩ := List.exists_cons_of_ne_nil hr
        have hd : isSpC d = true := by
          have := dropWhile_head_false (q := fun x => !isSpC x) (c :: cs) (hrdef ▸ hds)
          simpa using this
        have hsp : r.takeWhile isSpC = d :: ds.takeWhile isSpC := by
          rw [hds]
          exact List.takeWhile_cons_of_pos hd
        -- the remainder after the whitespace run
        set r2 := r.dropWhile isSpC with hr2def
        have hr2ne : r2 ≠ [] := by
          intro hnil
          have hallsp : ∀ x ∈ r, isSpC x = true := by
            have := List.dropWhile_eq_nil_iff.mp (hr2def ▸ hnil)
            simpa using this
          -- then the last character of s would be whitespace
          have hsplit : (c :: cs) = (c :: cs).takeWhile (fun x => !isSpC x) ++ r := by
            rw [hrdef]
            exact (List.takeWhile_append_dropWhile _ _).symm
          have hlastr : (c :: cs).getLast? = r.getLast? := by
            conv_lhs => rw [hsplit]
            rw [List.getLast?_append]
            cases hgl : r.getLast? with
            | none => exact absurd (List.getLast?_eq_none_iff.mp hgl) hr
            | some x => rfl
          obtain ⟨x, hx⟩ : ∃ x, r.getLast? = some x := by
            cases hgl : r.getLast? with
            | none => exact absurd (List.getLast?_eq_none_iff.mp hgl) hr
            | some x => exact ⟨x, rfl⟩
          have hxr : x ∈ r := List.mem_of_getLast?_eq_some hx
          have := hlast x (by rw [hlastr, hx])
          rw [hallsp x hxr] at this
          exact absurd this (by simp)
        have hr2head : HeadNotSp r2 := by
          intro x xs hxs
          have := dropWhile_head_false (q := isSpC) r (hr2def ▸ hxs)
          exact this
        have hr2last : LastNotSp r2 := by
          intro x hx
          apply hlast
          have hsplit : (c :: cs) = (c :: cs).takeWhile (fun y => !isSpC y) ++ r := by
            rw [hrdef]
            exact (List.takeWhile_append_dropWhile _ _).symm
          have hsplit2 : r = r.takeWhile isSpC ++ r2 := by
            rw [hr2def]
            exact (List.takeWhile_append_dropWhile _ _).symm
          conv_lhs => rw [hsplit, hsplit2]
          rw [List.getLast?_append, List.getLast?_append, hx]
          rfl
        have hr2len : r2.length ≤ m := by
          have := len_drop_drop (s := c :: cs) hr
          rw [← hrdef, ← hr2def] at this
          simp only [List.length_cons] at this hlen
          omega
        refine AltToks.alt ⟨by rw [hw]; simp, ?_⟩ ⟨by rw [hsp]; simp, ?_⟩
          (ih r2 hr2len hr2ne hr2head hr2last)
        · intro x hx
          have := List.mem_takeWhile_imp hx
          simpa using this
        · intro x hx
          rw [hsp] at hx
          rcases List.mem_cons.mp hx with hxe | hxm
          · rw [hxe]; exact hd
          · exact List.mem_takeWhile_imp hxm

theorem splitKeepWs_flatten {L : List Str} (hL : AltToks L) :
    splitKeepWs L.flatten = L := by
  induction hL with
  | single hw =>
      rename_i w
      obtain ⟨hne, hall⟩ := hw
      have hfl : ([w] : List Str).flatten = w := by simp
      rw [hfl]
      have hdrop : w.dropWhile (fun c => !isSpC c) = [] :=
        List.dropWhile_eq_nil_iff.mpr (fun x hx => by simp [hall x hx])
      rw [splitKeepWs_of_nil hdrop]
      have htake : w.takeWhile (fun c => !isSpC c) = w :=
        List.takeWhile_eq_self_iff.mpr (fun x hx => by simp [hall x hx])
      rw [htake]
  | alt hw hs hrest ih =>
      rename_i w s rest
      obtain ⟨hwne, hwall⟩ := hw
      obtain ⟨hsne, hsall⟩ := hs
      obtain ⟨d, ds, hds⟩ := List.exists_cons_of_ne_nil hsne
      obtain ⟨e, es, hfe, he⟩ := altToks_flatten_head hrest
      have hfl : (w :: s :: rest).flatten = w ++ (s ++ rest.flatten) := by simp
      rw [hfl]
      have hwpos : ∀ a ∈ w, (fun c => !isSpC c) a = true := fun a ha => by
        simp [hwall a ha]
      have hdrop1 : (w ++ (s ++ rest.flatten)).dropWhile (fun c => !isSpC c) =
          s ++ rest.flatten := by
        rw [List.dropWhile_append_of_pos hwpos, hds, List.cons_append,
          List.dropWhile_cons_of_neg (by simp [hsall d (by rw [hds]; simp)])]
      have hdropne : (w ++ (s ++ rest.flatten)).dropWhile (fun c => !isSpC c) ≠ [] := by
        rw [hdrop1, hds]
        simp
      rw [splitKeepWs_of_ne_nil hdropne]
      have htake1 : (w ++ (s ++ rest.flatten)).takeWhile (fun c => !isSpC c) = w := by
        rw [List.takeWhile_append_of_pos hwpos, hds, List.cons_append,
          List.takeWhile_cons_of_neg (by simp [hsall d (by rw [hds]; simp)])]
        simp
      have hspos : ∀ a ∈ s, isSpC a = true := hsall
      have htake2 : (s ++ rest.flatten).takeWhile isSpC = s := by
        rw [List.takeWhile_append_of_pos hspos, hfe,
          List.takeWhile_cons_of_neg (by simp [he])]
        simp
      have hdrop2 : (s ++ rest.flatten).dropWhile isSpC = rest.flatten := by
        rw [List.dropWhile_append_of_pos hspos, hfe,
          List.dropWhile_cons_of_neg (by simp [he]), ← hfe]
      rw [htake1, hdrop1, htake2, hdrop2, ih]

theorem wordTok_not_pyIsSpace {p : Str} (h : WordTok p) : pyIsSpace p = false := by
  obtain ⟨hne, hall⟩ := h
  obtain ⟨c, cs, rfl⟩ := List.exists_cons_of_ne_nil hne
  simp [pyIsSpace, hall c (by simp)]

theorem spTok_pyIsSpace {p : Str} (h : SpTok p) : pyIsSpace p = true := by
  obtain ⟨hne, hall⟩ := h
  obtain ⟨c, cs, rfl⟩ := List.exists_cons_of_ne_nil hne
  simp only [pyIsSpace, List.isEmpty_cons, Bool.not_false, Bool.true_and,
    List.all_eq_true]
  exact fun x hx => hall x hx

theorem spTok_titleToken {p : Str} (h : SpTok p) : titleToken p = p := by
  rw [titleToken, if_pos (spTok_pyIsSpace h)]

theorem titleToken_word_eq {p : Str} (h : WordTok p) :
    titleToken p =
      if pyLower p ∈ keep_lower then pyLower p else pyCapitalize (pyLower p) := by
  rw [titleToken, if_neg (by simp [wordTok_not_pyIsSpace h])]

theorem wordTok_pyLower {p : Str} (h : WordTok p) : WordTok (pyLower p) := by
  obtain ⟨hne, hall⟩ := h
  constructor
  · simp only [pyLower, ne_eq, List.map_eq_nil_iff]
    exact hne
  · intro c hc
    simp only [pyLower, List.mem_map] at hc
    obtain ⟨a, ha, rfl⟩ := hc
    exact isSpC_lowerC (hall a ha)

theorem wordTok_pyCapitalize {p : Str} (h : WordTok p) : WordTok (pyCapitalize p) := by
  obtain ⟨hne, hall⟩ := h
  obtain ⟨c, cs, rfl⟩ := List.exists_cons_of_ne_nil hne
  constructor
  · simp [pyCapitalize]
  · intro x hx
    simp only [pyCapitalize] at hx
    rcases List.mem_cons.mp hx with rfl | hxm
    · exact isSpC_upperC (hall c (by simp))
    · simp only [List.mem_map] at hxm
      obtain ⟨a, ha, rfl⟩ := hxm
      exact isSpC_lowerC (hall a (by simp [ha]))

theorem wordTok_titleToken {p : Str} (h : WordTok p) : WordTok (titleToken p) := by
  rw [titleToken_word_eq h]
  by_cases hk : pyLower p ∈ keep_lower
  · rw [if_pos hk]
    exact wordTok_pyLower h
  · rw [if_neg hk]
    exact wordTok_pyCapitalize (wordTok_pyLower h)

theorem pyLower_pyLower (p : Str) : pyLower (pyLower p) = pyLower p := by
  simp only [pyLower, List.map_map]
  exact List.map_congr_left fun c _ => by
    simp only [Function.comp_apply]
    exact lowerC_lowerC c

theorem pyLower_pyCapitalize (p : Str) :
    pyLower (pyCapitalize (pyLower p)) = pyLower p := by
  cases p with
  | nil => rfl
  | cons c cs =>
      simp only [pyLower, List.map_cons, pyCapitalize, List.map_map]
      rw [List.cons_eq_cons]
      refine ⟨by rw [lowerC_upperC (lowerC c), lowerC_lowerC c], ?_⟩
      exact List.map_congr_left fun x _ => by
        simp only [Function.comp_apply]
        rw [lowerC_lowerC, lowerC_lowerC]

theorem pyLower_titleToken {p : Str} (h : WordTok p) :
    pyLower (titleToken p) = pyLower p := by
  rw [titleToken_word_eq h]
  by_cases hk : pyLower p ∈ keep_lower
  · rw [if_pos hk]
    exact pyLower_pyLower p
  · rw [if_neg hk]
    exact pyLower_pyCapitalize p

theorem titleToken_titleToken {p : Str} (h : WordTok p ∨ SpTok p) :
    titleToken (titleToken p) = titleToken p := by
  rcases h with hw | hs
  · rw [titleToken_word_eq (wordTok_titleToken hw), pyLower_titleToken hw,
      ← titleToken_word_eq hw]
  · rw [spTok_titleToken hs, spTok_titleToken hs]

theorem altToks_map {L : List Str} (h : AltToks L) :
    AltToks (L.map titleToken) := by
  induction h with
  | single hw => exact AltToks.single (wordTok_titleToken hw)
  | alt hw hs hrest ih =>
      simp only [List.map_cons]
      rw [spTok_titleToken hs]
      exact AltToks.alt (wordTok_titleToken hw) hs ih

theorem altToks_mem {L : List Str} (h : AltToks L) :
    ∀ p ∈ L, WordTok p ∨ SpTok p := by
  induction h with
  | single hw =>
      intro p hp
      rw [List.mem_singleton] at hp
      exact hp ▸ Or.inl hw
  | alt hw hs hrest ih =>
      intro p hp
      rcases List.mem_cons.mp hp with rfl | hp2
      · exact Or.inl hw
      · rcases List.mem_cons.mp hp2 with rfl | hp3
        · exact Or.inr hs
        · exact ih p hp3

theorem title_case_name_eq_of_ne_nil {s : Str} (hs : s ≠ []) :
    title_case_name s = ((splitKeepWs (pyStrip s)).map titleToken).flatten := by
  rw [title_case_name, if_neg hs]

/-- C5: `title_case_name` is deterministic (a pure function of its argument
in this model) and idempotent: applying it twice gives the same result as
applying it once, for every string. -/
theorem title_case_name_idem (s : Str) :
    title_case_name (title_case_name s) = title_case_name s := by
  by_cases hs : s = []
  · rw [hs]
    rfl
  · have hbody := title_case_name_eq_of_ne_nil hs
    by_cases hu : pyStrip s = []
    · have h1 : splitKeepWs ([] : Str) = [[]] := splitKeepWs_of_nil (by simp)
      have ht : title_case_name s = [] := by
        rw [hbody, hu, h1]
        rfl
      rw [ht]
      rfl
    · have halt : AltToks (splitKeepWs (pyStrip s)) :=
        altToks_splitKeepWs (pyStrip s).length (pyStrip s) le_rfl hu
          (pyStrip_head s) (pyStrip_last s)
      have halt2 : AltToks ((splitKeepWs (pyStrip s)).map titleToken) :=
        altToks_map halt
      have hFne : ((splitKeepWs (pyStrip s)).map titleToken).flatten ≠ [] :=
        altToks_flatten_ne_nil halt2
      rw [hbody]
      rw [title_case_name, if_neg hFne]
      rw [pyStrip_eq_self (altToks_flatten_headNotSp halt2)
        (altToks_flatten_lastNotSp halt2)]
      rw [splitKeepWs_flatten halt2]
      congr 1
      rw [List.map_map]
      exact List.map_congr_left fun p hp => by
        simp only [Function.comp_apply]
        exact titleToken_titleToken (altToks_mem halt p hp)

/-! ### Query-model lemmas -/

theorem run_candidate_totals_eq_filter (tbl : List TotalsRow) :
    run_candidate_totals tbl = tbl.filter scopeTot := by
  simp only [run_candidate_totals, fetch_candidate_totals_fixed, pyOrEmptyList,
    candidate_totals_query, PQuery.run, PQuery.eqCol, PQuery.selectAll]
  exact List.filter_congr fun r _ => by
    simp [scopeTot, Bool.and_assoc]

theorem run_totals_by_type_eq_filter (tbl : List ByTypeRow) :
    run_totals_by_type tbl = tbl.filter scopeTyp := by
  simp only [run_totals_by_type, fetch_totals_by_type_fixed, pyOrEmptyList,
    totals_by_type_query, PQuery.run, PQuery.eqCol, PQuery.selectAll]
  exact List.filter_congr fun r _ => by
    simp [scopeTyp, Bool.and_assoc]

theorem top_donors_query_none_rowFilter (candidate_last : Str) (top_n : Nat)
    (r : DonorRow) :
    (top_donors_query candidate_last none top_n).rowFilter r =
      scope_cand_filter candidate_last r := by
  simp [top_donors_query, PQuery.eqCol, PQuery.selectAll, PQuery.orderBy,
    PQuery.limitTo, scope_cand_filter, Bool.and_assoc]

theorem top_donors_rowFilter_scope {candidate_last : Str}
    {contributor_type_group : Option Str} {top_n : Nat} {r : DonorRow}
    (h : (top_donors_query candidate_last contributor_type_group top_n).rowFilter r
      = true) :
    r.election_year = SCOPE_YEAR ∧ r.office = SCOPE_OFFICE ∧
      r.seat = SCOPE_SEAT ∧ r.candidate_last = candidate_last := by
  cases contributor_type_group with
  | none =>
      rw [top_donors_query_none_rowFilter] at h
      simpa [scope_cand_filter] using h
  | some g =>
      by_cases hg : g = []
      · simp only [top_donors_query, hg, if_true, if_false, ite_true, ite_false] at h
        simp only [PQuery.eqCol, PQuery.selectAll, PQuery.orderBy, PQuery.limitTo,
          Bool.and_eq_true, decide_eq_true_eq] at h
        exact ⟨h.1.1.1.2, h.1.1.2, h.1.2, h.2⟩
      · simp only [top_donors_query, hg, if_true, if_false, ite_true, ite_false] at h
        simp only [PQuery.eqCol, PQuery.selectAll, PQuery.orderBy, PQuery.limitTo,
          Bool.and_eq_true, decide_eq_true_eq] at h
        exact ⟨h.1.1.1.1.2, h.1.1.1.2, h.1.1.2, h.1.2⟩

theorem run_top_donors_mem {candidate_last : Str}
    {contributor_type_group : Option Str} {top_n : Nat} {tbl : List DonorRow}
    {r : DonorRow}
    (h : r ∈ run_top_donors candidate_last contributor_type_group top_n tbl) :
    (top_donors_query candidate_last contributor_type_group top_n).rowFilter r
      = true := by
  simp only [run_top_donors, fetch_top_donors_for_candidate_fixed,
    pyOrEmptyList] at h
  set q := top_donors_query candidate_last contributor_type_group top_n with hq
  simp only [PQuery.run] at h
  have h2 : r ∈ tbl.filter q.rowFilter := by
    cases hord : q.ordRel with
    | none =>
        rw [hord] at h
        cases hlim : q.lim with
        | none => rw [hlim] at h; exact h
        | some n => rw [hlim] at h; exact List.take_subset n _ h
    | some rel =>
        rw [hord] at h
        cases hlim : q.lim with
        | none =>
            rw [hlim] at h
            exact (List.mem_insertionSort _).mp h
        | some n =>
            rw [hlim] at h
            exact (List.mem_insertionSort _).mp (List.take_subset n _ h)
  exact (List.mem_filter.mp h2).2

theorem pyStrip_length_le (s : Str) : (pyStrip s).length ≤ s.length := by
  unfold pyStrip
  rw [List.length_reverse]
  calc ((s.dropWhile isSpC).reverse.dropWhile isSpC).length
      ≤ (s.dropWhile isSpC).reverse.length := (List.dropWhile_sublist _).length_le
    _ = (s.dropWhile isSpC).length := List.length_reverse _
    _ ≤ s.length := (List.dropWhile_sublist _).length_le

theorem pyOrEmptyList_empty {α : Type} {d : Option (List α)}
    (h : d = none ∨ d = some []) : pyOrEmptyList d = [] := by
  rcases h with h | h <;> rw [h] <;> rfl

/-! ### Claim theorems -/

/-- C1: every fetch operation returns a row sequence, and whenever the backend
response carries no data (a `None`/absent `data` attribute or an empty list)
it returns the empty sequence, never `None` — for all eight fetchers. -/
theorem claim_fetchers_empty_on_no_data :
    (∀ resp : PgResp CandRow, resp.data = none ∨ resp.data = some [] →
      fetch_candidates_ce_2026 resp = []) ∧
    (∀ resp : PgResp TotalsRow, resp.data = none ∨ resp.data = some [] →
      fetch_candidate_totals_fixed resp = []) ∧
    (∀ resp : PgResp ByTypeRow, resp.data = none ∨ resp.data = some [] →
      fetch_totals_by_type_fixed resp = []) ∧
    (∀ (c : Str) (t : Option Str) (resp : PgResp OverlapSummaryRow),
      resp.data = none ∨ resp.data = some [] →
      fetch_overlap_summary_fixed c t resp = []) ∧
    (∀ (a b : Str) (t : Option Str) (resp : PgResp PairRow),
      resp.data = none ∨ resp.data = some [] →
      fetch_overlap_pairwise_fixed a b t resp = []) ∧
    (∀ (c : Str) (t : Option Str) (n : Nat) (resp : PgResp HistRow),
      resp.data = none ∨ resp.data = some [] →
      fetch_donor_history_fixed c t n resp = []) ∧
    (∀ (c d : Str) (n : Nat) (y : Bool) (resp : PgResp EntityHistRow),
      resp.data = none ∨ resp.data = some [] →
      fetch_entity_history_fixed c d n y resp = []) ∧
    (∀ (c : Str) (g : Option Str) (n : Nat) (resp : PgResp DonorRow),
      resp.data = none ∨ resp.data = some [] →
      fetch_top_donors_for_candidate_fixed c g n resp = []) :=
  ⟨fun _ h => pyOrEmptyList_empty h,
   fun _ h => pyOrEmptyList_empty h,
   fun _ h => pyOrEmptyList_empty h,
   fun _ _ _ h => pyOrEmptyList_empty h,
   fun _ _ _ _ h => pyOrEmptyList_empty h,
   fun _ _ _ _ h => pyOrEmptyList_empty h,
   fun _ _ _ _ _ h => pyOrEmptyList_empty h,
   fun _ _ _ _ h => pyOrEmptyList_empty h⟩

/-- Witness for C1: concrete empty-data and `None`-data responses produce `[]`. -/
theorem claim_fetchers_empty_on_no_data_witness :
    fetch_candidates_ce_2026 { data := none, status := 500 } = [] ∧
    fetch_top_donors_for_candidate_fixed [] none 5 { data := some [], status := 200 } = [] :=
  ⟨claim_fetchers_empty_on_no_data.1 _ (Or.inl rfl),
   claim_fetchers_empty_on_no_data.2.2.2.2.2.2.2 [] none 5 _ (Or.inr rfl)⟩

/-- C2 counterexample: for `fetch_overlap_summary_fixed`, a response without a
`data` payload (`getattr` default, status 500) returns exactly the same empty
sequence as a successful zero-match response, so this failure is not
observably different from "computed, zero matches". -/
theorem claim_failure_distinguishable_counterexample :
    fetch_overlap_summary_fixed ['s'] none { data := none, status := 500 } =
      fetch_overlap_summary_fixed ['s'] none { data := some [], status := 200 } ∧
    fetch_overlap_summary_fixed ['s'] none { data := none, status := 500 } = [] :=
  ⟨rfl, rfl⟩

/-- C2 (amended): a transport error (an exception raised by `execute()`)
does propagate to the caller as a distinguishable failure, but a response
whose `data` attribute is absent or `None` is converted by the
`getattr(resp, "data", None) or []` pattern into the same empty sequence as a
successful zero-match result, for the three cited fetchers. -/
theorem claim_failure_handling_amended :
    (∀ (e : TransportFailure) (c : Str) (t : Option Str),
      fetchWithExc (fetch_overlap_summary_fixed c t) (.error e) = .error e) ∧
    (∀ (c : Str) (t : Option Str) (resp : PgResp OverlapSummaryRow),
      resp.data = none →
      fetch_overlap_summary_fixed c t resp =
        fetch_overlap_summary_fixed c t { data := some [], status := 200 }) ∧
    (∀ (e : TransportFailure) (c : Str) (t : Option Str) (n : Nat),
      fetchWithExc (fetch_donor_history_fixed c t n) (.error e) = .error e) ∧
    (∀ (c : Str) (t : Option Str) (n : Nat) (resp : PgResp HistRow),
      resp.data = none →
      fetch_donor_history_fixed c t n resp =
        fetch_donor_history_fixed c t n { data := some [], status := 200 }) ∧
    (∀ (e : TransportFailure) (c d : Str) (n : Nat) (y : Bool),
      fetchWithExc (fetch_entity_history_fixed c d n y) (.error e) = .error e) ∧
    (∀ (c d : Str) (n : Nat) (y : Bool) (resp : PgResp EntityHistRow),
      resp.data = none →
      fetch_entity_history_fixed c d n y resp =
        fetch_entity_history_fixed c d n y { data := some [], status := 200 }) :=
  ⟨fun _ _ _ => rfl,
   fun _ _ resp h => by
    simp only [fetch_overlap_summary_fixed, h, pyOrEmptyList],
   fun _ _ _ _ => rfl,
   fun _ _ _ resp h => by
    simp only [fetch_donor_history_fixed, h, pyOrEmptyList],
   fun _ _ _ _ _ => rfl,
   fun _ _ _ _ resp h => by
    simp only [fetch_entity_history_fixed, h, pyOrEmptyList]⟩

/-- Witness for the amended C2: a concrete propagated error and a concrete
swallowed `None` payload. -/
theorem claim_failure_handling_amended_witness :
    fetchWithExc (fetch_overlap_summary_fixed [] none) (.error ['x']) = .error ['x'] ∧
    fetch_overlap_summary_fixed [] none { data := none, status := 500 } =
      fetch_overlap_summary_fixed [] none { data := some [], status := 200 } :=
  ⟨claim_failure_handling_amended.1 ['x'] [] none,
   claim_failure_handling_amended.2.1 [] none _ rfl⟩

/-- C3: an absent contributor-type filter means no restriction: the UI value
"All" maps to `None` and to no `ct_group`; with `None` the top-donors query
adds no `contributor_type_group` equality condition (its row filter is
exactly the scope-and-candidate filter); the by-type dataframe is not
row-filtered; and a `None` filter never yields "match nothing": whenever the
view holds a matching row and the limit is positive, the result is
non-empty. -/
theorem claim_none_filter_no_restriction :
    p_contributor_type_of ("All".toList) = none ∧
    ct_group_of none = none ∧
    (∀ (c : Str) (n : Nat) (r : DonorRow),
      (top_donors_query c none n).rowFilter r = scope_cand_filter c r) ∧
    (∀ df : List ByTypeRow, apply_type_filter none df = df) ∧
    (∀ (c : Str) (n : Nat) (tbl : List DonorRow), 0 < n →
      (∃ r ∈ tbl, scope_cand_filter c r = true) →
      run_top_donors c none n tbl ≠ []) := by
  refine ⟨rfl, rfl, top_donors_query_none_rowFilter, fun df => rfl, ?_⟩
  intro c n tbl hn hex
  obtain ⟨r, hr, hf⟩ := hex
  intro hnil
  have hfil : r ∈ tbl.filter (top_donors_query c none n).rowFilter :=
    List.mem_filter.mpr ⟨hr, by rw [top_donors_query_none_rowFilter]; exact hf⟩
  have hnil2 : ((tbl.filter (top_donors_query c none n).rowFilter).insertionSort
      (fun a b => decide (b.total_amount ≤ a.total_amount) = true)).take n = [] := hnil
  rcases List.take_eq_nil_iff.mp hnil2 with h0 | hsortnil
  · omega
  · have hlen := List.length_insertionSort
      (fun a b : DonorRow => decide (b.total_amount ≤ a.total_amount) = true)
      (tbl.filter (top_donors_query c none n).rowFilter)
    rw [hsortnil] at hlen
    simp at hlen
    have hpos : 0 < (tbl.filter (top_donors_query c none n).rowFilter).length :=
      List.length_pos.mpr (List.ne_nil_of_mem hfil)
    omega

/-- Witness for C3: a one-row view inside the scope gives a non-empty
top-donors result under the `None` filter. -/
theorem claim_none_filter_no_restriction_witness :
    run_top_donors ['b'] none 3 [sampleDonorRow] ≠ [] :=
  claim_none_filter_no_restriction.2.2.2.2 ['b'] 3 [sampleDonorRow]
    (by decide) ⟨sampleDonorRow, by decide, by decide⟩

/-- C4: the scope restriction (election_year 2026, office "County Executive",
seat "AtLarge") is applied inside each totals query itself: running the two
totals queries equals filtering the view by the scope predicate (before any
client-side aggregation or display processing), and every row the top-donors
fetcher can return satisfies the scope. -/
theorem claim_scope_applied_in_query :
    (∀ tbl : List TotalsRow, run_candidate_totals tbl = tbl.filter scopeTot) ∧
    (∀ tbl : List ByTypeRow, run_totals_by_type tbl = tbl.filter scopeTyp) ∧
    (∀ (c : Str) (g : Option Str) (n : Nat) (tbl : List DonorRow) (r : DonorRow),
      r ∈ run_top_donors c g n tbl →
      r.election_year = SCOPE_YEAR ∧ r.office = SCOPE_OFFICE ∧
        r.seat = SCOPE_SEAT) := by
  refine ⟨run_candidate_totals_eq_filter, run_totals_by_type_eq_filter, ?_⟩
  intro c g n tbl r hmem
  have h := top_donors_rowFilter_scope (run_top_donors_mem hmem)
  exact ⟨h.1, h.2.1, h.2.2.1⟩

/-- Witness for C4: a concrete in-scope row returned by the top-donors query
satisfies the scope. -/
theorem claim_scope_applied_in_query_witness :
    sampleDonorRow.election_year = SCOPE_YEAR ∧
      sampleDonorRow.office = SCOPE_OFFICE ∧ sampleDonorRow.seat = SCOPE_SEAT :=
  claim_scope_applied_in_query.2.2 ['b'] none 3 [sampleDonorRow] sampleDonorRow
    (by decide)

/-- C6: the contact form builds an insert payload for `contact_signups` if
and only if the submitted email is non-empty and contains the character "@";
otherwise no insert is attempted (an error is reported instead). -/
theorem claim_contact_insert_iff :
    ∀ email name zipRaw source : Str,
      (contact_form_submit email name zipRaw source).isSome ↔
        email ≠ [] ∧ '@' ∈ email := by
  intro email name zipRaw source
  simp only [contact_form_submit, contact_form]
  by_cases h : email = [] ∨ ¬ ('@' ∈ email)
  · rw [if_pos h]
    simp only [Option.isSome_none, Bool.false_eq_true, false_iff]
    tauto
  · rw [if_neg h]
    simp only [Option.isSome_some, true_iff]
    tauto

/-- C7 counterexample: the zip input is limited to 10 characters
(`max_chars=10`), not 5: the 6-character input "123456" (with a valid email)
is accepted and stored whole, so the stored zip length is 6 > 5. -/
theorem claim_zip5_counterexample :
    ¬ (storedZipLen (contact_form_submit ("a@b".toList) [] ("123456".toList) []) ≤ 5) := by
  decide

/-- C7 (amended): the zip field accepted and stored is limited to 10
characters — the text input truncates at `max_chars=10` and the stored value
is the stripped accepted input — so every stored zip has length at most 10. -/
theorem claim_zip_at_most_ten :
    ∀ email name zipRaw source : Str,
      storedZipLen (contact_form_submit email name zipRaw source) ≤ 10 := by
  intro email name zipRaw source
  simp only [contact_form_submit, contact_form, zip_input_accepted]
  by_cases h : email = [] ∨ ¬ ('@' ∈ email)
  · rw [if_pos h]
    simp [storedZipLen]
  · rw [if_neg h]
    simp only [storedZipLen, pyStripOrNone]
    by_cases hz : pyStrip (zipRaw.take 10) = []
    · rw [if_pos hz]
      simp
    · rw [if_neg hz]
      exact le_trans (pyStrip_length_le _) (List.length_take_le _ _)

/-- C8: for every non-empty pairwise result set, the displayed drill-down
table is a permutation of the fetched rows ordered by amount to the target
candidate descending, then amount to the other candidate descending, then
the other candidate's name ascending — within one pairwise drill-down every
row has the same other candidate `oname`, so the final name tie-break
constrains nothing further and the stable two-key sort realizes the order. -/
theorem claim_pair_drilldown_order :
    ∀ (oname : Str) (rows : List PairRow), rows ≠ [] →
      (pair_display_sort rows).Perm rows ∧
        (pair_display_sort rows).Sorted (claimedPairOrder oname) := by
  intro oname rows _
  refine ⟨List.perm_insertionSort pairSortRel rows, ?_⟩
  have hs : (pair_display_sort rows).Sorted pairSortRel :=
    List.sorted_insertionSort pairSortRel rows
  refine hs.imp ?_
  intro a b hab
  rcases hab with h | ⟨he, hb⟩
  · exact Or.inl h
  · right
    refine ⟨he, ?_⟩
    rcases lt_or_eq_of_le hb with h2 | h2
    · exact Or.inl h2
    · exact Or.inr ⟨h2.symm, Or.inl rfl⟩

/-- Witness for C8: the singleton result set, displayed. -/
theorem claim_pair_drilldown_order_witness :
    (pair_display_sort [samplePairRow]).Perm [samplePairRow] ∧
      (pair_display_sort [samplePairRow]).Sorted (claimedPairOrder []) :=
  claim_pair_drilldown_order [] [samplePairRow] (by decide)

/-- C9: each fetcher is deterministic: its result depends only on the call
parameters and the response's `data` payload, so two calls with identical
parameters against an unchanged backend return identical row sequences (in
particular, no nondeterminism is introduced between the backend response and
the returned rows). -/
theorem claim_fetchers_deterministic :
    (∀ r1 r2 : PgResp CandRow, r1.data = r2.data →
      fetch_candidates_ce_2026 r1 = fetch_candidates_ce_2026 r2) ∧
    (∀ r1 r2 : PgResp TotalsRow, r1.data = r2.data →
      fetch_candidate_totals_fixed r1 = fetch_candidate_totals_fixed r2) ∧
    (∀ r1 r2 : PgResp ByTypeRow, r1.data = r2.data →
      fetch_totals_by_type_fixed r1 = fetch_totals_by_type_fixed r2) ∧
    (∀ (c : Str) (t : Option Str) (r1 r2 : PgResp OverlapSummaryRow),
      r1.data = r2.data →
      fetch_overlap_summary_fixed c t r1 = fetch_overlap_summary_fixed c t r2) ∧
    (∀ (a b : Str) (t : Option Str) (r1 r2 : PgResp PairRow),
      r1.data = r2.data →
      fetch_overlap_pairwise_fixed a b t r1 = fetch_overlap_pairwise_fixed a b t r2) ∧
    (∀ (c : Str) (t : Option Str) (n : Nat) (r1 r2 : PgResp HistRow),
      r1.data = r2.data →
      fetch_donor_history_fixed c t n r1 = fetch_donor_history_fixed c t n r2) ∧
    (∀ (c d : Str) (n : Nat) (y : Bool) (r1 r2 : PgResp EntityHistRow),
      r1.data = r2.data →
      fetch_entity_history_fixed c d n y r1 = fetch_entity_history_fixed c d n y r2) ∧
    (∀ (c : Str) (g : Option Str) (n : Nat) (r1 r2 : PgResp DonorRow),
      r1.data = r2.data →
      fetch_top_donors_for_candidate_fixed c g n r1 =
        fetch_top_donors_for_candidate_fixed c g n r2) :=
  ⟨fun _ _ h => congrArg pyOrEmptyList h,
   fun _ _ h => congrArg pyOrEmptyList h,
   fun _ _ h => congrArg pyOrEmptyList h,
   fun _ _ _ _ h => congrArg pyOrEmptyList h,
   fun _ _ _ _ _ h => congrArg pyOrEmptyList h,
   fun _ _ _ _ _ h => congrArg pyOrEmptyList h,
   fun _ _ _ _ _ _ h => congrArg pyOrEmptyList h,
   fun _ _ _ _ _ h => congrArg pyOrEmptyList h⟩

/-- Witness for C9: two responses with equal payloads but different statuses
give the same result. -/
theorem claim_fetchers_deterministic_witness :
    fetch_candidates_ce_2026 { data := some [], status := 200 } =
      fetch_candidates_ce_2026 { data := some [], status := 404 } :=
  claim_fetchers_deterministic.1 { data := some [], status := 200 }
    { data := some [], status := 404 } rfl

/-- C10: `title_case_name` is total on falsy input: `None` and the empty
string are returned unchanged, without error. -/
theorem claim_title_falsy_unchanged :
    title_case_name_py none = none ∧ title_case_name [] = [] :=
  ⟨rfl, rfl⟩
